import Mathlib

/-! The package `cfbypass`: detection and solving of the CloudFlare interstitial
challenge.

A shallow embedding of `cf.go`.  Go strings are Lean strings read as lists of
characters; Go `nil` pointers are `Option`; a Go run-time panic is an explicit
result; the calls a function makes to its collaborators (transport, script
engine, sleep) are recorded in a trace of events.
-/

set_option autoImplicit false

namespace Cfbypass

/-! ## Regular expressions (Go `regexp`, leftmost-first semantics) -/

/-- Regular expression syntax tree, restricted to the constructs that occur in
the patterns of `cf.go`: literals, character classes, concatenation, alternation,
capture groups and repetition of a character class (lazy or greedy). -/
inductive Re where
  | eps : Re
  | lit (s : List Char) : Re
  | cls (p : Char → Bool) : Re
  | seq (a b : Re) : Re
  | alt (a b : Re) : Re
  | star (greedy : Bool) (p : Char → Bool) : Re
  | cap (i : Nat) (a : Re) : Re

/-- Matcher state: the input still to be read, the offset reached, and the
capture slots recorded so far as (group, start offset, end offset). -/
structure MState where
  rest : List Char
  pos : Nat
  caps : List (Nat × Nat × Nat)

/-- Consume the literal `l` from the front of the state. -/
def matchLit : List Char → MState → Option MState
  | [], st => some st
  | c :: l, st =>
    match st.rest with
    | [] => none
    | d :: t => if c = d then matchLit l { st with rest := t, pos := st.pos + 1 } else none

/-- Lazy repetition `p*?`: prefer to stop, otherwise take one more character. -/
def lazyStar {R : Type} (p : Char → Bool) (k : MState → Option R) :
    List Char → Nat → List (Nat × Nat × Nat) → Option R
  | [], pos, caps => k ⟨[], pos, caps⟩
  | c :: t, pos, caps =>
    match k ⟨c :: t, pos, caps⟩ with
    | some r => some r
    | none => if p c then lazyStar p k t (pos + 1) caps else none

/-- Greedy repetition `p*`: prefer to take one more character, otherwise stop. -/
def greedyStar {R : Type} (p : Char → Bool) (k : MState → Option R) :
    List Char → Nat → List (Nat × Nat × Nat) → Option R
  | [], pos, caps => k ⟨[], pos, caps⟩
  | c :: t, pos, caps =>
    if p c then
      match greedyStar p k t (pos + 1) caps with
      | some r => some r
      | none => k ⟨c :: t, pos, caps⟩
    else k ⟨c :: t, pos, caps⟩

/-- Backtracking match of `re` at the current state, in priority order, with
continuation `k`: the first success is the leftmost-first match. -/
def Re.run {R : Type} : Re → (MState → Option R) → MState → Option R
  | .eps, k, st => k st
  | .lit l, k, st =>
    match matchLit l st with
    | some st2 => k st2
    | none => none
  | .cls p, k, st =>
    match st.rest with
    | [] => none
    | c :: t => if p c then k { st with rest := t, pos := st.pos + 1 } else none
  | .seq a b, k, st => a.run (b.run k) st
  | .alt a b, k, st =>
    match a.run k st with
    | some r => some r
    | none => b.run k st
  | .star true p, k, st => greedyStar p k st.rest st.pos st.caps
  | .star false p, k, st => lazyStar p k st.rest st.pos st.caps
  | .cap i a, k, st =>
    a.run (fun st2 => k { st2 with caps := (i, st.pos, st2.pos) :: st2.caps }) st

/-- Try the pattern at every start offset from the left; the result is the
start offset together with the final matcher state. -/
def Re.searchFrom (re : Re) : List Char → Nat → Option (Nat × MState)
  | [], pos =>
    match re.run (fun st => some st) ⟨[], pos, []⟩ with
    | some st => some (pos, st)
    | none => none
  | c :: t, pos =>
    match re.run (fun st => some st) ⟨c :: t, pos, []⟩ with
    | some st => some (pos, st)
    | none => re.searchFrom t (pos + 1)

/-- The text of the slice `[a, b)` of `s`. -/
def slice (s : List Char) (a b : Nat) : List Char := (s.drop a).take (b - a)

/-- Text of capture group `i`: the most recent slot recorded for it, or the
empty string when the group did not take part in the match. -/
def capText (s : List Char) (caps : List (Nat × Nat × Nat)) (i : Nat) : String :=
  match caps.find? (fun c => c.1 == i) with
  | some c => String.mk (slice s c.2.1 c.2.2)
  | none => ""

/-- `re.MatchString(s)`. -/
def Re.MatchString (re : Re) (s : String) : Bool :=
  (re.searchFrom s.data 0).isSome

/-- `re.FindStringSubmatch(s)` for a pattern with `n` capture groups: `none` is
the Go `nil` slice, otherwise element 0 is the match and element `i` group `i`. -/
def Re.FindStringSubmatch (re : Re) (n : Nat) (s : String) : Option (List String) :=
  match re.searchFrom s.data 0 with
  | none => none
  | some (b, st) =>
    some (String.mk (slice s.data b st.pos) ::
      (List.range n).map (fun i => capText s.data st.caps (i + 1)))

/-- Successive non-overlapping matches, each with its captures. The patterns of
`cf.go` never match the empty string, so a match always advances; `fuel` bounds
the number of matches by the length of the input. -/
def Re.findAllFrom (re : Re) (n : Nat) (whole : List Char) : Nat → List Char → Nat →
    List (List String)
  | 0, _, _ => []
  | fuel + 1, rest, pos =>
    match re.searchFrom rest pos with
    | none => []
    | some (b, st) =>
      let m := String.mk (slice whole b st.pos) ::
        (List.range n).map (fun i => capText whole st.caps (i + 1))
      if st.pos = pos then
        match rest with
        | [] => [m]
        | _ :: t => m :: re.findAllFrom n whole fuel t (pos + 1)
      else m :: re.findAllFrom n whole fuel st.rest st.pos

/-- `re.FindAllStringSubmatch(s, -1)`. -/
def Re.FindAllStringSubmatch (re : Re) (n : Nat) (s : String) : List (List String) :=
  re.findAllFrom n s.data (s.data.length + 1) s.data 0

/-- `re.FindAllString(s, -1)`. -/
def Re.FindAllString (re : Re) (s : String) : List String :=
  (re.FindAllStringSubmatch 0 s).map (fun m => m.headD "")

/-- Character class `.` under the `(?s)` flag, and `[\s\S]`. -/
def anyChar : Char → Bool := fun _ => true

/-- Character class `\s` (Perl class: tab, newline, form feed, carriage return, space). -/
def isSpaceClass : Char → Bool := fun c =>
  c = '\t' || c = '\n' || c.toNat = 12 || c = '\r' || c = ' '

/-- Character class `\d`. -/
def isDigitClass : Char → Bool := fun c => 48 ≤ c.toNat && c.toNat ≤ 57

/-- Concatenation of a list of patterns. -/
def Re.cat : List Re → Re
  | [] => .eps
  | [r] => r
  | r :: rs => .seq r (Re.cat rs)

/-- Literal pattern from a string. -/
def Re.str (s : String) : Re := .lit s.data

/-- Pattern `.*?`. -/
def Re.lazyAny : Re := .star false anyChar

/-- Pattern `reForm`. -/
def reForm : Re :=
  Re.cat [Re.str "<form", Re.lazyAny, Re.str "id=\"challenge-form\"", Re.lazyAny, Re.str "/form>"]

/-- Pattern `reFormMethod`. -/
def reFormMethod : Re :=
  Re.cat [Re.str "method=\"", .cap 1 Re.lazyAny, Re.str "\""]

/-- Pattern `reFormAction`. -/
def reFormAction : Re :=
  Re.cat [Re.str "action=\"", .cap 1 Re.lazyAny, Re.str "\""]

/-- Pattern `reFormInput`. -/
def reFormInput : Re :=
  Re.cat [Re.str "<input", Re.lazyAny, .alt (Re.str "/>") (Re.str "</input>")]

/-- Pattern `reFormInputName`. -/
def reFormInputName : Re :=
  Re.cat [Re.str "name=\"", .cap 1 Re.lazyAny, Re.str "\""]

/-- Pattern `reFormInputValue`. -/
def reFormInputValue : Re :=
  Re.cat [Re.str "value=\"", .cap 1 Re.lazyAny, Re.str "\""]

/-- Pattern `reJavaScript`. -/
def reJavaScript : Re :=
  Re.cat [Re.str "<script type=\"text/javascript\">\n", .cap 1 Re.lazyAny, Re.str "</script>"]

/-- Pattern `reChallenge`. -/
def reChallenge : Re :=
  Re.cat [
    Re.str "setTimeout(function()\x7b", .star true isSpaceClass,
    .cap 1 (Re.cat [
      Re.str "var s,t,o,p", .alt (.cls anyChar) .eps, Re.str "b,r,e,a,k,i,n,g,f",
      .cls anyChar, Re.lazyAny,
      .alt (Re.str "\r") .eps, Re.str "\n",
      .cls anyChar, Re.lazyAny,
      Re.str "a.value", .star true isSpaceClass, Re.str "=",
      .cls anyChar, Re.lazyAny]),
    .alt (Re.str "\r") .eps, Re.str "\n",
    .alt (Re.cat [
      .star true (fun c => !(c.toNat = 123 || c = '<' || c = '>')), Re.str "\x7d,",
      .star true isSpaceClass,
      .cap 2 (Re.cat [.cls isDigitClass, .cls isDigitClass, .cls isDigitClass,
        .cls isDigitClass, .star true isDigitClass])]) .eps]

/-- Pattern `reReplaceItalics`. -/
def reReplaceItalics : Re := Re.str "(\"\")[\"italics\"]()"

/-! ## Go `strings`, `strconv` and `fmt` helpers -/

/-- `strings.HasPrefix` on character lists. -/
def hasPrefixChars : List Char → List Char → Bool
  | _, [] => true
  | [], _ :: _ => false
  | c :: s, d :: p => c = d && hasPrefixChars s p

/-- `strings.HasPrefix(s, prefix)`. -/
def HasPrefix (s pre : String) : Bool := hasPrefixChars s.data pre.data

/-- Worker of `Split` for a one-character separator. -/
def splitChars (sep : Char) : List Char → List (List Char)
  | [] => [[]]
  | c :: t =>
    if c = sep then [] :: splitChars sep t
    else
      match splitChars sep t with
      | [] => [[c]]
      | h :: r => (c :: h) :: r

/-- `strings.Split(s, sep)` for the one-character separators used in `cf.go`
(`?`, `&`, `=`, `;`). The result always has at least one element. -/
def Split (s : String) (sep : Char) : List String :=
  (splitChars sep s.data).map String.mk

/-- Worker of `Replace`: left to right, every non-overlapping occurrence of the
non-empty text `old` is replaced by `new`; `skip` counts the characters of an
occurrence that are still to be dropped. -/
def replaceChars (old new : List Char) : Nat → List Char → List Char
  | _, [] => []
  | skip + 1, _ :: t => replaceChars old new skip t
  | 0, c :: t =>
    if hasPrefixChars (c :: t) old then new ++ replaceChars old new (old.length - 1) t
    else c :: replaceChars old new 0 t

/-- `strings.Replace(s, old, new, -1)` for non-empty `old`; also
`re.ReplaceAllString(s, new)` when the pattern is the literal `old`. -/
def Replace (s old new : String) : String :=
  String.mk (replaceChars old.data new.data 0 s.data)

/-- `unicode.IsSpace`. -/
def isSpace (c : Char) : Bool :=
  let n := c.toNat
  (9 ≤ n && n ≤ 13) || n = 32 || n = 133 || n = 160 || n = 5760 ||
  (8192 ≤ n && n ≤ 8202) || n = 8232 || n = 8233 || n = 8239 || n = 8287 || n = 12288

/-- `strings.Trim(s, cutset)` with the cutset given as a predicate. -/
def trimChars (p : Char → Bool) (s : List Char) : List Char :=
  ((s.dropWhile p).reverse.dropWhile p).reverse

/-- `strings.TrimSpace(s)`. -/
def TrimSpace (s : String) : String := String.mk (trimChars isSpace s.data)

/-- `strings.Trim(s, cutset)`. -/
def Trim (s cutset : String) : String :=
  String.mk (trimChars (fun c => cutset.data.contains c) s.data)

/-- Value of a string of decimal digits. -/
def digitsValue (s : List Char) : Nat :=
  s.foldl (fun acc c => 10 * acc + (c.toNat - 48)) 0

/-- `strconv.Atoi(s)` with the error dropped, for a non-empty string of decimal
digits (what group 2 of `reChallenge` captures): the value, or the largest
`int64` when the value is out of range. -/
def Atoi (s : String) : Int :=
  if digitsValue s.data ≤ 9223372036854775807 then (digitsValue s.data : Int)
  else 9223372036854775807

/-- Worker of `floorLog2`: halve until the number is below two. -/
def log2Fuel : Nat → Nat → Nat
  | 0, _ => 0
  | fuel + 1, n => if n < 2 then 0 else log2Fuel fuel (n / 2) + 1

/-- Position of the leading bit of `n`. -/
def floorLog2 (n : Nat) : Nat := log2Fuel n n

/-- Nearest `float64` to a natural number (ties to even): numbers below `2^53`
are exact, larger ones keep their 53 leading bits. -/
def roundFloat64 (n : Nat) : Nat :=
  if n < 9007199254740992 then n
  else
    let e := floorLog2 n - 52
    let q := n / 2 ^ e
    let r := n % 2 ^ e
    let half := 2 ^ (e - 1)
    if r < half then q * 2 ^ e
    else if half < r then (q + 1) * 2 ^ e
    else if q % 2 = 0 then q * 2 ^ e
    else (q + 1) * 2 ^ e

/-- Conversion `float64(n)` of an integer; a `float64` that holds a whole number
is represented by that integer. -/
def float64 (n : Int) : Int :=
  if 0 ≤ n then (roundFloat64 n.toNat : Int) else -(roundFloat64 (-n).toNat : Int)

/-- Reduction of an integer to the two's-complement `int64` range. -/
def wrapInt64 (n : Int) : Int :=
  (n + 9223372036854775808) % 18446744073709551616 - 9223372036854775808

/-! ## `http.Header`, `url.Values`, `url.URL` -/

/-- Test `validHeaderFieldByte` of `net/textproto`: the token characters of RFC 7230. -/
def validHeaderFieldByte (c : Char) : Bool :=
  let n := c.toNat
  (48 ≤ n && n ≤ 57) || (65 ≤ n && n ≤ 90) || (97 ≤ n && n ≤ 122) ||
  "!#$%&\x27*+-.^_\x60|~".data.contains c

/-- Letter-case pass of `canonicalMIMEHeaderKey`: upper case at the start and
after a hyphen, lower case elsewhere. -/
def canonicalChars : Bool → List Char → List Char
  | _, [] => []
  | upper, c :: t =>
    let n := c.toNat
    let d : Char :=
      if upper && 97 ≤ n && n ≤ 122 then Char.ofNat (n - 32)
      else if !upper && 65 ≤ n && n ≤ 90 then Char.ofNat (n + 32)
      else c
    d :: canonicalChars (d = '-') t

/-- `textproto.CanonicalMIMEHeaderKey(s)`: a key with a character outside the
token set is returned unchanged. -/
def CanonicalMIMEHeaderKey (s : String) : String :=
  if s.data.all validHeaderFieldByte then String.mk (canonicalChars true s.data) else s

/-- Go `map[string][]string` as an association list; the first entry of a key
is the one a lookup sees, and the list order is the order a `range` loop
visits the entries in. -/
abbrev StrMap := List (String × List String)

/-- Map read `m[key]`. -/
def StrMap.lookup (m : StrMap) (key : String) : Option (List String) :=
  match m.find? (fun e => e.1 = key) with
  | some e => some e.2
  | none => none

/-- Map write `m[key] = vs`. -/
def StrMap.assign (m : StrMap) (key : String) (vs : List String) : StrMap :=
  m.filter (fun e => e.1 ≠ key) ++ [(key, vs)]

/-- Map delete `delete(m, key)`. -/
def StrMap.delete (m : StrMap) (key : String) : StrMap :=
  m.filter (fun e => e.1 ≠ key)

/-- Type `http.Header`. -/
abbrev Header := StrMap

/-- `h.Get(key)`: first value of the canonical form of `key`, or the empty string. -/
def Header.Get (h : Header) (key : String) : String :=
  match StrMap.lookup h (CanonicalMIMEHeaderKey key) with
  | some (v :: _) => v
  | _ => ""

/-- `h.Values(key)`: all values stored under the canonical form of `key`. -/
def Header.Values (h : Header) (key : String) : List String :=
  (StrMap.lookup h (CanonicalMIMEHeaderKey key)).getD []

/-- `h.Add(key, value)`: append to the values of the canonical key. -/
def Header.Add (h : Header) (key value : String) : Header :=
  StrMap.assign h (CanonicalMIMEHeaderKey key)
    ((StrMap.lookup h (CanonicalMIMEHeaderKey key)).getD [] ++ [value])

/-- `h.Set(key, value)`. -/
def Header.Set (h : Header) (key value : String) : Header :=
  StrMap.assign h (CanonicalMIMEHeaderKey key) [value]

/-- `h.Del(key)`. -/
def Header.Del (h : Header) (key : String) : Header :=
  StrMap.delete h (CanonicalMIMEHeaderKey key)

/-- Type `url.Values`. -/
abbrev Values := StrMap

/-- `v.Get(key)`: first value of `key`, or the empty string. -/
def Values.Get (v : Values) (key : String) : String :=
  match StrMap.lookup v key with
  | some (x :: _) => x
  | _ => ""

/-- `v.Set(key, value)`. -/
def Values.Set (v : Values) (key value : String) : Values :=
  StrMap.assign v key [value]

/-- Upper-case hexadecimal digit. -/
def hexDigit (n : Nat) : Char := "0123456789ABCDEF".data.getD n '0'

/-- `url.QueryEscape` on one character: unreserved characters stay, a space
becomes `+`, every other character is percent-encoded byte by byte. -/
def queryEscapeChar (c : Char) : List Char :=
  let n := c.toNat
  if (48 ≤ n && n ≤ 57) || (65 ≤ n && n ≤ 90) || (97 ≤ n && n ≤ 122) ||
      c = '-' || c = '_' || c = '.' || c = '~' then [c]
  else if c = ' ' then ['+']
  else (String.utf8EncodeChar c).flatMap
    (fun b => ['%', hexDigit (b.toNat / 16), hexDigit (b.toNat % 16)])

/-- `url.QueryEscape(s)`. -/
def QueryEscape (s : String) : String := String.mk (s.data.flatMap queryEscapeChar)

/-- Byte-wise order of strings (code point order agrees with it on UTF-8). -/
def ltChars : List Char → List Char → Bool
  | _, [] => false
  | [], _ :: _ => true
  | c :: s, d :: t => c.toNat < d.toNat || (c = d && ltChars s t)

/-- Insertion of an entry into a key-sorted list. -/
def insertByKey (e : String × List String) : StrMap → StrMap
  | [] => [e]
  | f :: t => if ltChars e.1.data f.1.data then e :: f :: t else f :: insertByKey e t

/-- Text `a & b`, or the non-empty one of the two. -/
def joinAmp (a b : String) : String :=
  if a = "" then b else if b = "" then a else a ++ "&" ++ b

/-- `v.Encode()`: `key=value` pairs, both escaped, joined by `&`, keys sorted. -/
def Values.Encode (v : Values) : String :=
  (v.foldr insertByKey []).foldl
    (fun acc e => e.2.foldl
      (fun acc2 x => joinAmp acc2 (QueryEscape e.1 ++ "=" ++ QueryEscape x)) acc) ""

/-- Type `url.URL`, for URLs without user info or opaque part; `Path` and
`Fragment` hold their escaped forms. -/
structure URL where
  Scheme : String
  Host : String
  Path : String
  RawQuery : String
  Fragment : String
  deriving DecidableEq, Repr

/-- `u.String()`. -/
def URL.String (u : URL) : String :=
  (if u.Scheme ≠ "" then u.Scheme ++ ":" else "") ++
  (if u.Scheme ≠ "" ∨ u.Host ≠ "" then
    (if u.Host ≠ "" ∨ u.Path ≠ "" then "//" else "") ++ u.Host else "") ++
  (if u.Path ≠ "" ∧ u.Path.data.head? ≠ some '/' ∧ u.Host ≠ "" then "/" else "") ++
  u.Path ++
  (if u.RawQuery ≠ "" then "?" ++ u.RawQuery else "") ++
  (if u.Fragment ≠ "" then "#" ++ u.Fragment else "")

/-! ## Requests, responses and collaborators -/

/-- Type `http.Cookie`, reduced to its name and value, both already sanitised. -/
structure Cookie where
  Name : String
  Value : String
  deriving DecidableEq, Repr

/-- Type `http.Request`. -/
structure Request where
  Method : String
  URL : URL
  Header : Header
  Body : String
  deriving DecidableEq, Repr

/-- Outcome of `ioutil.ReadAll(resp.Body)`. -/
inductive BodyRead where
  | data (bytes : String)
  | broken (err : String)
  deriving DecidableEq, Repr

/-- Type `http.Response`. `Location` is the value of `resp.Location()` (`none`
when there is no usable `Location` header), `Cookies` the value of
`resp.Cookies()`, `Request` the request that led to the response. -/
structure Response where
  StatusCode : Int
  Header : Header
  Body : BodyRead
  Location : Option URL
  Cookies : List Cookie
  Request : Request
  deriving DecidableEq, Repr

/-- Type `callerFunc`: the transport, returning the Go pair (response, error). -/
abbrev callerFunc := Request → Option Response × Option String

/-- What the script engine makes of a program: `Eval` fails, or it yields a
value whose `ToString` succeeds or fails. -/
inductive JsResult where
  | evalError (err : String)
  | value (text : String)
  | noString (err : String)

/-- The collaborators outside the repository and the clock reading of one run. -/
structure Env where
  -- value of `time.Since(now).Milliseconds()` at line 214
  elapsed : Int
  -- `url.Parse`, as called by `http.NewRequest`
  urlParse : String → Except String URL
  -- `regexp.MustCompile` on a pattern built at run time: `none` is a panic,
  -- otherwise the `FindStringSubmatch` of the compiled pattern
  regexpCompile : String → Option (String → Option (List String))
  -- script engine: `otto.New().Eval(code)` followed by `ToString`
  otto : String → JsResult

/-- A call made to a collaborator, or the entry into a function of the pipeline. -/
inductive Event where
  | solveCloudFlare
  | solveChallenge (body host : String)
  | eval (code : String)
  | sleep (nanos : Int)
  | send (req : Request)
  deriving DecidableEq, Repr

/-- A Go call either returns or panics. -/
inductive Result (α : Type) where
  | ret (a : α)
  | panic (msg : String)
  deriving DecidableEq, Repr

/-- A stage of `solveCloudFlare` goes on with a value, makes the function
return `nil, false, err`, or panics. -/
inductive Step (α : Type) where
  | ok (a : α)
  | fail (err : String)
  | panic (msg : String)
  deriving DecidableEq, Repr

/-- Sequencing of stages. -/
def Step.bind {α β : Type} : Step α → (α → Step β) → Step β
  | .ok a, f => f a
  | .fail e, _ => .fail e
  | .panic m, _ => .panic m

/-- Index expression `xs[i]` on a slice. -/
def index {α : Type} (xs : List α) (i : Nat) : Step α :=
  match xs.get? i with
  | some x => .ok x
  | none => .panic ("index out of range [" ++ toString i ++ "] with length " ++
      toString xs.length)

/-- Index expression `m[i]` on the result of `FindStringSubmatch`. -/
def submatch (m : Option (List String)) (i : Nat) : Step String :=
  index (m.getD []) i

/-- The panic of a nil dereference. -/
def nilDeref : String := "invalid memory address or nil pointer dereference"

/-! ## `IsCloudFlared` -/

/-- `IsCloudFlared`: whether the response is blocked by CloudFlare. -/
def IsCloudFlared (resp : Response) : Bool :=
  (resp.StatusCode = 503 || resp.StatusCode = 429) &&
    HasPrefix (resp.Header.Get "Server") "cloudflare"

/-! ## `solveChallenge` -/

/-- Lines 296-308: the loop that looks for the assignment to `k` and takes the
content of the element with that id. -/
def innerHTMLLoop (env : Env) (body : String) : List String → String → Result String
  | [], innerHTML => .ret innerHTML
  | i :: rest, innerHTML =>
    match Split (TrimSpace i) '=' with
    | [] => .panic "index out of range [0] with length 0"
    | t0 :: ts =>
      if TrimSpace t0 = "k" then
        match ts with
        | [] => .panic "index out of range [1] with length 1"
        | t1 :: _ =>
          let k := Trim (TrimSpace t1) " \x27"
          match env.regexpCompile
              ("(?s)\\<div.*?id\\=\\\"" ++ k ++ "\\\".*?\\>(.*?)\\<\\/div\\>") with
          | none => .panic "regexp: Compile: error parsing regexp"
          | some reInnerHTML =>
            match reInnerHTML body with
            | none => innerHTMLLoop env body rest innerHTML
            | some m => innerHTMLLoop env body rest (m.getD 1 "")
      else innerHTMLLoop env body rest innerHTML

/-- Lines 311-321: the script handed to the engine. -/
def challengeScript (host innerHTML challenge : String) : String :=
  "\n\t\tvar document = \x7b\n\t\t\tcreateElement: function () \x7b\n\t\t\t  return \x7b firstChild: \x7b href: \"http://"
  ++ host ++
  "/\" \x7d \x7d\n\t\t\t\x7d,\n\t\t\tgetElementById: function () \x7b\n\t\t\t  return \x7b\"innerHTML\": \""
  ++ innerHTML ++
  "\"\x7d;\n\t\t\t\x7d\n\t\t  \x7d;\n\t\t"
  ++ challenge ++
  "; return a.value\n\t"

/-- `solveChallenge(body, host)`: the events it causes and its Go result
`(answer, delay, err)`; `delay` is a whole number of milliseconds held in a
`float64`. -/
def solveChallenge (env : Env) (body host : String) :
    List Event × Result (String × Int × Option String) :=
  match reJavaScript.FindStringSubmatch 1 body with
  | none => ([], .panic "index out of range [1] with length 0")
  | some found =>
    let javascript := found.getD 1 ""
    if !reChallenge.MatchString javascript then
      ([], .ret ("", 0, some "Cannot match challenge regexp"))
    else
      let challenges := (reChallenge.FindStringSubmatch 2 javascript).getD []
      let challenge := challenges.getD 1 ""
      let ms := challenges.getD 2 ""
      let challenge := Replace challenge "(\"\")[\"italics\"]()" "\"<i></i>\""
      match innerHTMLLoop env body (Split javascript ';') "" with
      | .panic m => ([], .panic m)
      | .ret innerHTML =>
        let challenge := challengeScript host innerHTML challenge
        let delay : Int := if ms ≠ "" then float64 (Atoi ms) else 8000
        let code := "(function () \x7b" ++ challenge ++ "\x7d)()"
        match env.otto code with
        | .evalError e => ([.eval code], .ret ("", delay, some ("JS Execution error: " ++ e)))
        | .noString e => ([.eval code], .ret ("", delay, some ("JS Result parse error: " ++ e)))
        | .value answer => ([.eval code], .ret (answer, delay, none))

/-! ## `copyRequestHeaders` -/

/-- `copyRequestHeaders(old, new)`: the loop visits the entries of `old.Header`
in list order; its test reads the header named by the string `"k"`. -/
def copyRequestHeaders (old new : Request) : Request :=
  let copied := old.Header.foldl
    (fun h e => if Header.Get h "k" = "" then StrMap.assign h e.1 e.2 else h) new.Header
  { new with Header := copied }

/-- `r.AddCookie(c)`. -/
def Request.AddCookie (r : Request) (c : Cookie) : Request :=
  let s := c.Name ++ "=" ++ c.Value
  let cur := r.Header.Get "Cookie"
  { r with Header := r.Header.Set "Cookie" (if cur ≠ "" then cur ++ "; " ++ s else s) }

/-! ## `solveCloudFlare` -/

/-- What lines 130-199 of `solveCloudFlare` extract from the challenge page. -/
structure Form where
  host : String
  method : String
  action : String
  submitURL : String
  formGet : Values
  formPost : Values
  deriving DecidableEq, Repr

/-- Lines 161-164: the parameters of the query of `action` go into `formGet`. -/
def queryLoop : List String → Values → Step Values
  | [], formGet => .ok formGet
  | param :: rest, formGet =>
    let params := Split param '='
    (index params 0).bind fun p0 =>
    (index params 1).bind fun p1 =>
    queryLoop rest (formGet.Set p0 p1)

/-- Lines 172-184: the `<input>` tags with a name and a value, the answer field
left out, go into the field set of the form method. -/
def inputLoop (method : String) : List String → Values × Values → Step (Values × Values)
  | [], forms => .ok forms
  | input :: rest, forms =>
    if !reFormInputName.MatchString input || !reFormInputValue.MatchString input then
      inputLoop method rest forms
    else
      (submatch (reFormInputName.FindStringSubmatch 1 input) 1).bind fun name =>
      if name ≠ "jschl_answer" then
        if method = "POST" then
          (submatch (reFormInputValue.FindStringSubmatch 1 input) 1).bind fun value =>
          inputLoop method rest (forms.1, forms.2.Set name value)
        else if method = "GET" then
          (submatch (reFormInputValue.FindStringSubmatch 1 input) 1).bind fun value =>
          inputLoop method rest (forms.1.Set name value, forms.2)
        else inputLoop method rest forms
      else inputLoop method rest forms

/-- Lines 188-192 and 194-198: the first mandatory parameter that is empty or
absent makes the function return an error that names it. -/
def mandatoryLoop (form : Values) : List String → Step Unit
  | [] => .ok ()
  | k :: ks =>
    if form.Get k = "" then .fail (k ++ " is missing from challenge form")
    else mandatoryLoop form ks

/-- Lines 130-184 of `solveCloudFlare`: form, method, action, submission URL and
the field sets assembled from the query of the action and the input tags. -/
def collectForm (requestURL : URL) (body : String) : Step Form :=
  if !reForm.MatchString body then .fail "Could not match Form regexp"
  else
    let host := Replace requestURL.Host ":443" ""
    (index (reForm.FindAllString body) 0).bind fun challengeForm =>
    if !reFormMethod.MatchString challengeForm then .fail "Could not match Form method regexp"
    else
      (index (reFormMethod.FindAllStringSubmatch 1 challengeForm) 0).bind fun m0 =>
      (index m0 1).bind fun method =>
      if !reFormAction.MatchString challengeForm then .fail "Could not match Form action regexp"
      else
        (index (reFormAction.FindAllStringSubmatch 1 challengeForm) 0).bind fun a0 =>
        (index a0 1).bind fun action =>
        (index (Split action '?') 0).bind fun path =>
        let submitURL :=
          if method = "POST" then requestURL.Scheme ++ "://" ++ host ++ action
          else requestURL.Scheme ++ "://" ++ host ++ path
        (if (Split action '?').length > 1 then
          (index (Split action '?') 1).bind fun query => queryLoop (Split query '&') []
         else .ok []).bind fun formGet =>
        if !reFormInput.MatchString challengeForm then .fail "Could not match Form Input regexp"
        else
          (inputLoop method (reFormInput.FindAllString challengeForm) (formGet, [])).bind
          fun forms => .ok ⟨host, method, action, submitURL, forms.1, forms.2⟩

/-- Lines 186-199 of `solveCloudFlare`: the check for the mandatory parameters. -/
def checkMandatory (form : Form) : Step Form :=
  (if form.method = "POST" then mandatoryLoop form.formPost ["jschl_vc", "pass"]
   else if form.method = "GET" then mandatoryLoop form.formGet ["jschl_vc", "pass"]
   else .ok ()).bind fun _ => .ok form

/-- Lines 130-199 of `solveCloudFlare`. -/
def extractForm (requestURL : URL) (body : String) : Step Form :=
  (collectForm requestURL body).bind checkMandatory

/-- Line 215: `math.Max(delay-float64(diff), 0)`. -/
def sleepDuration (delay diff : Int) : Int :=
  max (float64 (delay - float64 diff)) 0

/-- Conversion of a whole `float64` to `int64`; a value outside the range gives
the smallest `int64`, as on amd64. -/
def int64OfFloat (x : Int) : Int :=
  if -9223372036854775808 ≤ x ∧ x < 9223372036854775808 then x else -9223372036854775808

/-- Line 220: the argument `time.Duration(sleepDuration) * time.Millisecond` of
`time.Sleep`, in nanoseconds; the product is an `int64` and wraps. -/
def sleepNanos (delay diff : Int) : Int :=
  wrapInt64 (int64OfFloat (sleepDuration delay diff) * 1000000)

/-- Lines 214-221: the call of `time.Sleep`, if it is made. -/
def sleepEvents (delay diff : Int) : List Event :=
  if sleepDuration delay diff > 0 then [.sleep (sleepNanos delay diff)] else []

/-- Lines 207-211: the answer goes into the field set of the form method. -/
def withAnswer (form : Form) (answer : String) : Form :=
  if form.method = "POST" then { form with formPost := form.formPost.Set "jschl_answer" answer }
  else if form.method = "GET" then { form with formGet := form.formGet.Set "jschl_answer" answer }
  else form

/-- Lines 224-234: `http.NewRequest` for the form method; `req` stays `nil` for
any other method. -/
def newRequest (env : Env) (form : Form) : Step (Option Request) :=
  if form.method = "POST" then
    match env.urlParse form.submitURL with
    | .error e => .fail ("Cannot create HTTP request: " ++ e)
    | .ok u => .ok (some ⟨"POST", u, [], form.formPost.Encode⟩)
  else if form.method = "GET" then
    match env.urlParse form.submitURL with
    | .error e => .fail ("Cannot create HTTP request: " ++ e)
    | .ok u => .ok (some ⟨"GET", u, [], form.formGet.Encode⟩)
  else .ok none

/-- Lines 246-247: the `Referer` header is deleted and added anew. -/
def setReferer (req : Request) (originalURL : URL) : Request :=
  let h := (req.Header.Del "Referer").Add "Referer" (Replace originalURL.String ":443" "")
  { req with Header := h }

/-- Lines 250-254: content type of a POST, query of a GET. -/
def finishRequest (form : Form) (req : Request) : Request :=
  if form.method = "POST" then
    let h := req.Header.Add "Content-Type" "application/x-www-form-urlencoded"
    { req with Header := h }
  else if form.method = "GET" then
    let u := { req.URL with RawQuery := form.formGet.Encode }
    { req with URL := u }
  else req

/-- Lines 223-254 of `solveCloudFlare`: the submission request. With `req` still
`nil` the first access to it panics, at line 246 at the latest. -/
def buildRequest (env : Env) (form : Form) (resp : Response) (originalReq : Request)
    (originalURL : URL) : Step Request :=
  (newRequest env form).bind fun made =>
  match made with
  | none => .panic nilDeref
  | some req =>
    let req := copyRequestHeaders originalReq req
    let req := resp.Cookies.foldl Request.AddCookie req
    let req := setReferer req originalURL
    .ok (finishRequest form req)

/-- Lines 262-279 of `solveCloudFlare`: what is returned once the transport has
answered with the Go pair `(redirect, err)`. -/
def outcome (redirect : Option Response) (err : Option String) :
    Result (Option Response × Bool × Option String) :=
  match err with
  | some _ => .ret (redirect, true, none)
  | none =>
    match redirect with
    | none => .panic nilDeref
    | some r =>
      if r.StatusCode = 503 then
        .ret (none, false, some "Response after CloudFlare answer is still blocked with 503")
      else .ret (redirect, true, none)

/-- `solveCloudFlare(resp, originalReq, caller)`: the events it causes and its Go
result `(response, passed, err)`. Logging is left out. -/
def solveCloudFlare (env : Env) (resp : Response) (originalReq : Request)
    (caller : callerFunc) : List Event × Result (Option Response × Bool × Option String) :=
  let requestURL := originalReq.URL
  let originalURL := match resp.Location with
    | some u => u
    | none => originalReq.URL
  match resp.Body with
  | .broken e => ([.solveCloudFlare], .ret (none, false, some ("Body read error: " ++ e)))
  | .data body =>
    match extractForm requestURL body with
    | .panic m => ([.solveCloudFlare], .panic m)
    | .fail e => ([.solveCloudFlare], .ret (none, false, some e))
    | .ok form =>
      match solveChallenge env body form.host with
      | (t1, .panic m) => (.solveCloudFlare :: .solveChallenge body form.host :: t1, .panic m)
      | (t1, .ret (_, _, some e)) =>
        (.solveCloudFlare :: .solveChallenge body form.host :: t1,
          .ret (none, false, some ("Cannot solve the challenge: " ++ e)))
      | (t1, .ret (answer, delay, none)) =>
        let form := withAnswer form answer
        let t2 := .solveCloudFlare :: .solveChallenge body form.host :: t1 ++
          sleepEvents delay env.elapsed
        match buildRequest env form resp originalReq originalURL with
        | .panic m => (t2, .panic m)
        | .fail e => (t2, .ret (none, false, some e))
        | .ok req =>
          match caller req with
          | (redirect, err) => (t2 ++ [.send req], outcome redirect err)

/-! ## `RunClient` and `RunProxy` -/

/-- Lines 66-72 and 99-105: the retry of the original request `req` after a
solved challenge, and the `Set-Cookie` of the challenge response put on it. -/
def retry (transport : callerFunc) (cfResponse : Option Response) (req : Request) :
    Result (Option Response × Option String) :=
  match transport req with
  | (some respRetry, none) =>
    match cfResponse with
    | none => .panic nilDeref
    | some cf =>
      if cf.Header.Get "Set-Cookie" ≠ "" then
        let h := respRetry.Header.Add "Set-Cookie" (cf.Header.Get "Set-Cookie")
        .ret (some { respRetry with Header := h }, none)
      else .ret (some respRetry, none)
  | _ => .ret (none, none)

/-- Lines 60-64 and 93-97: the cookies of the challenge response go onto the request. -/
def addCookies (cfResponse : Option Response) (req : Request) : Request :=
  match cfResponse with
  | some cf => cf.Cookies.foldl Request.AddCookie req
  | none => req

/-- `RunClient(resp, client)`; `clientDo` is `client.Do`. -/
def RunClient (env : Env) (resp : Response) (clientDo : callerFunc) :
    List Event × Result (Option Response × Option String) :=
  if !IsCloudFlared resp then ([], .ret (some resp, none))
  else
    match solveCloudFlare env resp resp.Request clientDo with
    | (t, .panic m) => (t, .panic m)
    | (t, .ret (cfResponse, passed, err)) =>
      if passed && err = none then
        let req := addCookies cfResponse resp.Request
        (t ++ [.send req], retry clientDo cfResponse req)
      else if err ≠ none then (t, .ret (none, err))
      else (t, .ret (none, none))

/-- Type `goproxy.ProxyCtx`: the request, the user data (`none` when it is not a
byte slice) and the round trip. -/
structure ProxyCtx where
  Req : Request
  UserData : Option String
  RoundTrip : callerFunc

/-- `RunProxy(resp, ctx)`. -/
def RunProxy (env : Env) (resp : Response) (ctx : ProxyCtx) :
    List Event × Result (Option Response × Option String) :=
  if !IsCloudFlared resp then ([], .ret (some resp, none))
  else
    match solveCloudFlare env resp ctx.Req ctx.RoundTrip with
    | (t, .panic m) => (t, .panic m)
    | (t, .ret (cfResponse, passed, err)) =>
      if passed && err = none then
        match ctx.UserData with
        | none => (t, .panic "interface conversion: interface is not []uint8")
        | some bodyBytes =>
          let req := addCookies cfResponse { ctx.Req with Body := bodyBytes }
          (t ++ [.send req], retry ctx.RoundTrip cfResponse req)
      else if err ≠ none then (t, .ret (none, err))
      else (t, .ret (none, none))

/-- The field set of the form method: `formPost` for POST, `formGet` otherwise. -/
def Form.fields (form : Form) : Values :=
  if form.method = "POST" then form.formPost else form.formGet

/-- The arguments of all calls of `time.Sleep`, in nanoseconds, in order. -/
def sleepCalls : List Event → List Int
  | [] => []
  | .sleep d :: t => d :: sleepCalls t
  | _ :: t => sleepCalls t

/-- The time a run spends asleep, in nanoseconds: `time.Sleep` returns at once
for a duration that is zero or negative. -/
def timeAsleep (t : List Event) : Int :=
  ((sleepCalls t).map (fun d => max d 0)).sum

/-- All requests handed to the transport, in order. -/
def sentRequests : List Event → List Request
  | [] => []
  | .send req :: t => req :: sentRequests t
  | _ :: t => sentRequests t

/-! ## Sample inputs -/

/-- A stand-in for `url.Parse` on absolute URLs of the shape
`scheme://host/path?query`. -/
def parseAbsolute (s : String) : Except String URL :=
  match splitChars ':' s.data with
  | scheme :: _ =>
    let afterScheme := s.data.drop (scheme.length + 3)
    if hasPrefixChars (s.data.drop scheme.length) "://".data then
      let host := afterScheme.takeWhile (fun c => c ≠ '/' && c ≠ '?')
      let tail := afterScheme.drop host.length
      let path := tail.takeWhile (fun c => c ≠ '?')
      let query := (tail.drop path.length).drop 1
      .ok ⟨String.mk scheme, String.mk host, String.mk path, String.mk query, ""⟩
    else .error "missing protocol scheme"
  | [] => .error "empty url"

/-- Collaborators of the sample runs, with the given clock reading: the script
engine answers `2`, the value of the program the sample pages carry. -/
def sampleEnvAt (elapsed : Int) : Env :=
  ⟨elapsed, parseAbsolute, fun _ => some (fun _ => none), fun _ => .value "2"⟩

/-- Collaborators of the sample runs when no time has elapsed. -/
def sampleEnv : Env := sampleEnvAt 0

/-- The script block of the sample challenge pages, with the given wait: the
answer field is fetched from the document and set to 2. -/
def sampleScript (wait : String) : String :=
  "<script type=\"text/javascript\">\nsetTimeout(function()\x7b var s,t,o,p,b,r,e,a,k,i,n,g,f, x=1;\n a = document.getElementById(\"jschl-answer\");\n a.value = 2;\n\x7d, "
    ++ wait ++ ");</script>"

/-- A challenge page with the given form action, method, input tags and wait. -/
def samplePageWait (action method inputs wait : String) : String :=
  "<form id=\"challenge-form\" action=\"" ++ action ++ "\" method=\"" ++ method ++ "\">" ++
    inputs ++ "</form>" ++ sampleScript wait

/-- A challenge page with the given form action, method and input tags, and a
wait of 4000 ms. -/
def samplePage (action method inputs : String) : String :=
  samplePageWait action method inputs "4000"

/-- Input tags with both mandatory fields. -/
def bothInputs : String :=
  "<input name=\"jschl_vc\" value=\"v\"/><input name=\"pass\" value=\"p\"/>"

/-- An original request to the given host that carries its own content type and
referer. -/
def sampleRequest (host : String) : Request :=
  ⟨"GET", ⟨"https", host, "/x", "", ""⟩,
    [("Content-Type", ["application/json"]), ("Referer", ["https://other.example/"])], ""⟩

/-- A challenge response with the given body to `sampleRequest host`. -/
def sampleResponse (host body : String) : Response :=
  ⟨503, [("Server", ["cloudflare"])], .data body, none, [⟨"__cfduid", "abc"⟩],
    sampleRequest host⟩

/-- A response that is not a challenge. -/
def plainResponse : Response :=
  ⟨200, [("Server", ["nginx"])], .data "hello", none, [], sampleRequest "example.com"⟩

/-- A response the transport may deliver for the submission. -/
def answerResponse (status : Int) : Response :=
  ⟨status, [("Set-Cookie", ["cf_clearance=xyz"])], .data "", none, [⟨"cf_clearance", "xyz"⟩],
    sampleRequest "example.com"⟩

/-- A transport that fails every request. -/
def failingTransport : callerFunc := fun _ => (none, some "dial tcp: i/o timeout")

/-- A transport that answers every request with the given status. -/
def answeringTransport (status : Int) : callerFunc := fun _ => (some (answerResponse status), none)

/-- The submission `solveCloudFlare` builds for the sample POST page. -/
def sampleSubmission : Request :=
  ⟨"POST", ⟨"https", "example.com", "/cdn-cgi/l/chk_jschl", "", ""⟩,
    [("Cookie", ["__cfduid=abc"]), ("Referer", ["https://example.com/x"]),
      ("Content-Type", ["application/json", "application/x-www-form-urlencoded"])],
    "jschl_answer=2&jschl_vc=v&pass=p"⟩

/-- The sample POST page with both mandatory fields. -/
def postPage : String := samplePage "/cdn-cgi/l/chk_jschl" "POST" bothInputs

/-- A POST page whose form has no `pass` input. -/
def noPassPage : String :=
  samplePage "/cdn-cgi/l/chk_jschl" "POST" "<input name=\"jschl_vc\" value=\"v\"/>"

/-- What `collectForm` extracts from `noPassPage`. -/
def noPassForm : Form :=
  ⟨"example.com", "POST", "/cdn-cgi/l/chk_jschl", "https://example.com/cdn-cgi/l/chk_jschl",
    [], [("jschl_vc", ["v"])]⟩

/-- A page whose form method is written in lower case and that has no
`jschl_vc` input. -/
def lowerCasePage : String :=
  samplePage "/cdn-cgi/l/chk_jschl" "get" "<input name=\"pass\" value=\"p\"/>"

/-- What `collectForm` and `extractForm` make of `lowerCasePage`. -/
def lowerCaseForm : Form :=
  ⟨"example.com", "get", "/cdn-cgi/l/chk_jschl", "https://example.com/cdn-cgi/l/chk_jschl",
    [], []⟩

/-- The sample POST page with a wait of 9223372036855 ms. -/
def longWaitPage : String :=
  samplePageWait "/cdn-cgi/l/chk_jschl" "POST" bothInputs "9223372036855"

/-- The sample POST page with a wait of `2^60` ms. -/
def hugeWaitPage : String :=
  samplePageWait "/cdn-cgi/l/chk_jschl" "POST" bothInputs "1152921504606846976"

/-- What `extractForm` makes of the sample POST pages. -/
def postForm : Form :=
  ⟨"example.com", "POST", "/cdn-cgi/l/chk_jschl", "https://example.com/cdn-cgi/l/chk_jschl",
    [], [("jschl_vc", ["v"]), ("pass", ["p"])]⟩

/-- The program the script engine is given for a sample page on `example.com`. -/
def sampleProgram : String :=
  "(function () \x7b" ++ challengeScript "example.com" ""
    "var s,t,o,p,b,r,e,a,k,i,n,g,f, x=1;\n a = document.getElementById(\"jschl-answer\");\n a.value = 2;"
    ++ "\x7d)()"

/-- A fresh POST request that already carries the content type of a form. -/
def formRequest : Request :=
  ⟨"POST", ⟨"https", "example.com", "/cdn-cgi/l/chk_jschl", "", ""⟩,
    [("Content-Type", ["application/x-www-form-urlencoded"])], ""⟩

/-- A proxy context around the sample request. -/
def sampleCtx : ProxyCtx := ⟨sampleRequest "example.com", some "", failingTransport⟩

/-! ## Lemmas -/

theorem hasPrefixChars_iff (s p : List Char) :
    hasPrefixChars s p = true ↔ ∃ t, s = p ++ t := by
  induction p generalizing s with
  | nil => simp [hasPrefixChars]
  | cons d p ih =>
    cases s with
    | nil => simp [hasPrefixChars]
    | cons c s =>
      simp only [hasPrefixChars, Bool.and_eq_true, decide_eq_true_eq, ih, List.cons_append,
        List.cons.injEq]
      constructor
      · rintro ⟨h, t, ht⟩
        exact ⟨t, h, ht⟩
      · rintro ⟨t, h, ht⟩
        exact ⟨h, t, ht⟩

theorem canonical_Server : CanonicalMIMEHeaderKey "Server" = "Server" := by decide

theorem float64_exact (n : Int) (h1 : -9007199254740992 < n) (h2 : n < 9007199254740992) :
    float64 n = n := by
  unfold float64 roundFloat64
  split
  · rw [if_pos (by omega)]
    omega
  · rw [if_pos (by omega)]
    omega

theorem wrapInt64_exact (n : Int) (h1 : -9223372036854775808 ≤ n)
    (h2 : n < 9223372036854775808) : wrapInt64 n = n := by
  unfold wrapInt64
  rw [Int.emod_eq_of_lt (by omega) (by omega)]
  omega

theorem solveChallenge_trace (env : Env) (body host : String) (req : Request) :
    Event.send req ∉ (solveChallenge env body host).1 := by
  simp only [solveChallenge]
  split
  · simp
  · split
    · simp
    · split
      · simp
      · split <;> simp

theorem sleepEvents_trace (delay diff : Int) (req : Request) :
    Event.send req ∉ sleepEvents delay diff := by
  unfold sleepEvents
  split <;> simp

/-- Whenever `solveCloudFlare` hands a request to the transport, its result is
the `outcome` of what the transport returned for that request. -/
theorem solveCloudFlare_sent (env : Env) (resp : Response) (originalReq : Request)
    (caller : callerFunc) (req : Request)
    (hsend : Event.send req ∈ (solveCloudFlare env resp originalReq caller).1) :
    (solveCloudFlare env resp originalReq caller).2 = outcome (caller req).1 (caller req).2 := by
  unfold solveCloudFlare at hsend ⊢
  cases hb : resp.Body with
  | broken e => simp [hb] at hsend
  | data body =>
    simp only [hb] at hsend ⊢
    cases hf : extractForm originalReq.URL body with
    | panic m => simp [hf] at hsend
    | fail e => simp [hf] at hsend
    | ok form =>
      simp only [hf] at hsend ⊢
      have ht := solveChallenge_trace env body form.host req
      have hs := sleepEvents_trace
      rcases hc : solveChallenge env body form.host with ⟨t1, r⟩
      rw [hc] at ht
      rcases r with ⟨answer, delay, _ | e⟩ | m
      · simp only [hc] at hsend ⊢
        cases hq : buildRequest env (withAnswer form answer) resp originalReq
            (match resp.Location with
              | some u => u
              | none => originalReq.URL) with
        | panic m =>
          simp only [hq] at hsend
          simp_all
        | fail e =>
          simp only [hq] at hsend
          simp_all
        | ok q =>
          simp only [hq] at hsend ⊢
          simp_all
      · simp_all
      · simp_all

theorem find_filter_append (k k2 : String) (vs : List String) (h : k2 ≠ k) (l : StrMap) :
    List.find? (fun e => decide (e.1 = k2)) (l.filter (fun e => decide (e.1 ≠ k)) ++ [(k, vs)])
      = List.find? (fun e => decide (e.1 = k2)) l := by
  induction l with
  | nil => simp [List.find?, Ne.symm h]
  | cons a l ih =>
    by_cases hk : a.1 = k
    · have h2 : ¬ a.1 = k2 := by rw [hk]; exact Ne.symm h
      rw [List.filter_cons_of_neg (by simpa using hk), List.find?_cons_of_neg _ (by simpa using h2)]
      exact ih
    · rw [List.filter_cons_of_pos (by simpa using hk), List.cons_append]
      by_cases h2 : a.1 = k2
      · rw [List.find?_cons_of_pos _ (by simpa using h2),
          List.find?_cons_of_pos _ (by simpa using h2)]
      · rw [List.find?_cons_of_neg _ (by simpa using h2),
          List.find?_cons_of_neg _ (by simpa using h2)]
        exact ih

theorem lookup_assign_ne (m : StrMap) (k k2 : String) (vs : List String) (h : k2 ≠ k) :
    StrMap.lookup (StrMap.assign m k vs) k2 = StrMap.lookup m k2 := by
  unfold StrMap.lookup StrMap.assign
  rw [find_filter_append k k2 vs h m]

theorem Get_Set_ne (v : Values) (k k2 x : String) (h : k2 ≠ k) :
    Values.Get (Values.Set v k x) k2 = Values.Get v k2 := by
  unfold Values.Get Values.Set
  rw [lookup_assign_ne _ _ _ _ h]

theorem mandatoryLoop_eq (v : Values) :
    mandatoryLoop v ["jschl_vc", "pass"] =
      if v.Get "jschl_vc" = "" then .fail "jschl_vc is missing from challenge form"
      else if v.Get "pass" = "" then .fail "pass is missing from challenge form"
      else .ok () := by
  simp only [mandatoryLoop]
  split
  · rfl
  · split
    · rfl
    · rfl

theorem checkMandatory_eq (form : Form) (hm : form.method = "POST" ∨ form.method = "GET") :
    checkMandatory form =
      if form.fields.Get "jschl_vc" = "" then .fail "jschl_vc is missing from challenge form"
      else if form.fields.Get "pass" = "" then .fail "pass is missing from challenge form"
      else .ok form := by
  unfold checkMandatory Form.fields
  rcases hm with hm | hm
  · simp only [hm, if_true, mandatoryLoop_eq]
    split
    · rfl
    · split <;> rfl
  · have : ¬ ("GET" = "POST") := by decide
    simp only [hm, this, if_false, if_true, mandatoryLoop_eq]
    split
    · rfl
    · split <;> rfl

theorem log2Fuel_spec (fuel n : Nat) (h : n ≤ fuel) (h0 : n ≠ 0) :
    2 ^ log2Fuel fuel n ≤ n ∧ n < 2 ^ (log2Fuel fuel n + 1) := by
  induction fuel generalizing n with
  | zero => omega
  | succ fuel ih =>
    unfold log2Fuel
    split
    · simp
      omega
    · have := ih (n / 2) (by omega) (by omega)
      rw [pow_succ, pow_succ, pow_succ]
      rw [pow_succ] at this
      omega

theorem floorLog2_spec (n : Nat) (h0 : n ≠ 0) :
    2 ^ floorLog2 n ≤ n ∧ n < 2 ^ (floorLog2 n + 1) :=
  log2Fuel_spec n n (Nat.le_refl n) h0

/-- Shape of the rounding of a number of at least 54 bits. -/
theorem roundFloat64_bracket (n : Nat) (h : 9007199254740992 ≤ n) :
    ∃ k q, 1 ≤ k ∧ 2 ^ 52 ≤ q ∧ q < 2 ^ 53 ∧ q * 2 ^ k ≤ n ∧ n < (q + 1) * 2 ^ k ∧
      (roundFloat64 n = q * 2 ^ k ∨ roundFloat64 n = (q + 1) * 2 ^ k) ∧
      (n = q * 2 ^ k → roundFloat64 n = n) := by
  have hn0 : n ≠ 0 := by omega
  obtain ⟨hlo, hhi⟩ := floorLog2_spec n hn0
  have hlog : 53 ≤ floorLog2 n := by
    by_contra hc
    have : 2 ^ (floorLog2 n + 1) ≤ 2 ^ 53 := Nat.pow_le_pow_right (by norm_num) (by omega)
    norm_num at this
    omega
  obtain ⟨k, hk⟩ : ∃ k, k = floorLog2 n - 52 := ⟨_, rfl⟩
  have hk1 : 1 ≤ k := by omega
  have hkl : floorLog2 n = 52 + k := by omega
  have hpos : 0 < 2 ^ k := Nat.two_pow_pos k
  rw [hkl, pow_add] at hlo
  rw [hkl, show 52 + k + 1 = 53 + k by omega, pow_add] at hhi
  have hq1 : n / 2 ^ k * 2 ^ k ≤ n := Nat.div_mul_le_self n (2 ^ k)
  have hq2 : n < (n / 2 ^ k + 1) * 2 ^ k := by
    have := Nat.lt_div_mul_add (a := n) hpos
    rw [Nat.add_mul, Nat.one_mul]
    exact this
  have hq3 : 2 ^ 52 ≤ n / 2 ^ k := (Nat.le_div_iff_mul_le hpos).2 hlo
  have hq4 : n / 2 ^ k < 2 ^ 53 := (Nat.div_lt_iff_lt_mul hpos).2 hhi
  refine ⟨k, n / 2 ^ k, hk1, hq3, hq4, hq1, hq2, ?_, ?_⟩
  · unfold roundFloat64
    rw [if_neg (by omega)]
    simp only [← hk]
    split
    · exact Or.inl rfl
    · split
      · exact Or.inr rfl
      · split
        · exact Or.inl rfl
        · exact Or.inr rfl
  · intro hn
    unfold roundFloat64
    rw [if_neg (by omega)]
    simp only [← hk]
    have hmod : n % 2 ^ k = 0 := by
      rw [hn]
      exact Nat.mul_mod_left _ _
    have hhalf : 0 < 2 ^ (k - 1) := Nat.two_pow_pos _
    rw [hmod, if_pos hhalf]
    exact hn.symm

/-- A number lies in at most one bracket of 53-bit multiples of a power of two. -/
theorem bracket_unique (x k1 q1 k2 q2 : Nat)
    (a1 : 2 ^ 52 ≤ q1) (b1 : q1 < 2 ^ 53) (c1 : q1 * 2 ^ k1 ≤ x) (d1 : x < (q1 + 1) * 2 ^ k1)
    (a2 : 2 ^ 52 ≤ q2) (b2 : q2 < 2 ^ 53) (c2 : q2 * 2 ^ k2 ≤ x) (d2 : x < (q2 + 1) * 2 ^ k2) :
    k1 = k2 ∧ q1 = q2 := by
  have key : ∀ ka qa kb qb : Nat, 2 ^ 52 ≤ qb → qa < 2 ^ 53 → qb * 2 ^ kb ≤ x →
      x < (qa + 1) * 2 ^ ka → ¬ ka < kb := by
    intro ka qa kb qb hb ha hlo hhi hlt
    have h1 : 2 ^ (ka + 1) ≤ 2 ^ kb := Nat.pow_le_pow_right (by norm_num) hlt
    have h2 : (qa + 1) * 2 ^ ka ≤ 2 ^ 53 * 2 ^ ka := Nat.mul_le_mul_right _ (by omega)
    have h3 : 2 ^ 52 * 2 ^ kb ≤ qb * 2 ^ kb := Nat.mul_le_mul_right _ hb
    have h4 : 2 ^ 52 * 2 ^ (ka + 1) ≤ 2 ^ 52 * 2 ^ kb := Nat.mul_le_mul_left _ h1
    rw [pow_succ] at h4
    have h5 : 2 ^ 52 * (2 ^ ka * 2) = 2 ^ 53 * 2 ^ ka := by ring
    omega
  have hk : k1 = k2 := by
    have := key k1 q1 k2 q2 a2 b1 c2 d1
    have := key k2 q2 k1 q1 a1 b2 c1 d2
    omega
  subst hk
  refine ⟨rfl, ?_⟩
  have e1 : q1 * 2 ^ k1 < (q2 + 1) * 2 ^ k1 := lt_of_le_of_lt c1 d2
  have e2 : q2 * 2 ^ k1 < (q1 + 1) * 2 ^ k1 := lt_of_le_of_lt c2 d1
  have f1 := Nat.lt_of_mul_lt_mul_right e1
  have f2 := Nat.lt_of_mul_lt_mul_right e2
  omega

/-- A representable number of at least 54 bits is the lower end of its bracket. -/
theorem representable_bracket (r : Nat) (h : 9007199254740992 ≤ r) (hr : roundFloat64 r = r) :
    ∃ k q, 2 ^ 52 ≤ q ∧ q < 2 ^ 53 ∧ r = q * 2 ^ k := by
  obtain ⟨k, q, _, a, b, c, d, e, _⟩ := roundFloat64_bracket r h
  refine ⟨k, q, a, b, ?_⟩
  rcases e with e | e
  · rw [← e]
    exact hr.symm
  · rw [hr] at e
    omega

/-- Rounding does not step over a representable number from below. -/
theorem roundFloat64_le (n r : Nat) (hr : roundFloat64 r = r) (h : n ≤ r) :
    roundFloat64 n ≤ r := by
  by_cases hn : n < 9007199254740992
  · unfold roundFloat64
    rw [if_pos hn]
    exact h
  · obtain ⟨k, q, _, a, b, c, d, e, f⟩ := roundFloat64_bracket n (by omega)
    by_cases hc : (q + 1) * 2 ^ k ≤ r
    · rcases e with e | e <;> rw [e]
      · have : q * 2 ^ k ≤ (q + 1) * 2 ^ k := Nat.mul_le_mul_right _ (by omega)
        omega
      · exact hc
    · obtain ⟨k2, q2, a2, b2, e2⟩ := representable_bracket r (by omega) hr
      have d2 : r < (q2 + 1) * 2 ^ k2 := by
        rw [e2, Nat.add_mul]
        have := Nat.two_pow_pos k2
        omega
      have := bracket_unique r k q k2 q2 a b (by omega) (by omega) a2 b2 (by omega) d2
      obtain ⟨hk, hq⟩ := this
      subst hk
      subst hq
      have hnr : n = q * 2 ^ k := by omega
      rw [f hnr]
      exact h

/-- Rounding does not step over a representable number from above. -/
theorem le_roundFloat64 (n r : Nat) (hr : roundFloat64 r = r) (h : r ≤ n) :
    r ≤ roundFloat64 n := by
  by_cases hn : n < 9007199254740992
  · unfold roundFloat64
    rw [if_pos hn]
    exact h
  · obtain ⟨k, q, hk1, a, b, c, d, e, f⟩ := roundFloat64_bracket n (by omega)
    have hle : q * 2 ^ k ≤ roundFloat64 n := by
      rcases e with e | e <;> rw [e]
      exact Nat.mul_le_mul_right _ (by omega)
    by_cases hc : r ≤ q * 2 ^ k
    · omega
    · exfalso
      have h53 : 2 ^ 52 * 2 ^ 1 ≤ q * 2 ^ k :=
        Nat.mul_le_mul a (Nat.pow_le_pow_right (by norm_num) hk1)
      norm_num at h53
      obtain ⟨k2, q2, a2, b2, e2⟩ := representable_bracket r (by omega) hr
      have d2 : r < (q2 + 1) * 2 ^ k2 := by
        rw [e2, Nat.add_mul]
        have := Nat.two_pow_pos k2
        omega
      have := bracket_unique r k q k2 q2 a b (by omega) (by omega) a2 b2 (by omega) d2
      obtain ⟨hk, hq⟩ := this
      subst hk
      subst hq
      omega

/-- A 53-bit multiple of a power of two is representable. -/
theorem roundFloat64_multiple (m k : Nat) (a : 2 ^ 52 ≤ m) (b : m < 2 ^ 53) :
    roundFloat64 (m * 2 ^ k) = m * 2 ^ k := by
  by_cases hn : m * 2 ^ k < 9007199254740992
  · unfold roundFloat64
    rw [if_pos hn]
  · obtain ⟨k2, q2, _, a2, b2, c2, d2, _, f⟩ := roundFloat64_bracket (m * 2 ^ k) (by omega)
    have d1 : m * 2 ^ k < (m + 1) * 2 ^ k := by
      rw [Nat.add_mul]
      have := Nat.two_pow_pos k
      omega
    obtain ⟨hk, hq⟩ := bracket_unique (m * 2 ^ k) k m k2 q2 a b (Nat.le_refl _) d1 a2 b2 c2 d2
    subst hk
    subst hq
    exact f rfl

/-- Rounding twice is rounding once. -/
theorem roundFloat64_idem (n : Nat) : roundFloat64 (roundFloat64 n) = roundFloat64 n := by
  by_cases hn : n < 9007199254740992
  · have : roundFloat64 n = n := by
      unfold roundFloat64
      rw [if_pos hn]
    rw [this, this]
  · obtain ⟨k, q, _, a, b, _, _, e, _⟩ := roundFloat64_bracket n (by omega)
    rcases e with e | e <;> rw [e]
    · exact roundFloat64_multiple q k a b
    · by_cases hq : q + 1 < 2 ^ 53
      · exact roundFloat64_multiple (q + 1) k (by omega) hq
      · have h1 : (q + 1) * 2 ^ k = 2 ^ 52 * 2 ^ (k + 1) := by
          have : q + 1 = 2 ^ 53 := by omega
          rw [this, pow_succ]
          ring
        rw [h1]
        exact roundFloat64_multiple (2 ^ 52) (k + 1) (Nat.le_refl _) (by norm_num)


theorem float64_nonneg (n : Int) (h : 0 ≤ n) : 0 ≤ float64 n := by
  unfold float64
  rw [if_pos h]
  exact Int.natCast_nonneg _

theorem roundFloat64_zero : roundFloat64 0 = 0 := by decide

theorem float64_nonpos (n : Int) (h : n ≤ 0) : float64 n ≤ 0 := by
  unfold float64
  split
  · have : n = 0 := by omega
    subst this
    simp [roundFloat64_zero]
  · have := Int.natCast_nonneg (roundFloat64 (-n).toNat)
    omega

/-- For a number that is not negative, `float64` is the rounding of naturals. -/
theorem float64_of_nonneg (n : Int) (h : 0 ≤ n) : float64 n = (roundFloat64 n.toNat : Int) := by
  unfold float64
  rw [if_pos h]

theorem representable_toNat (w : Int) (hw : 0 ≤ w) (hr : float64 w = w) :
    roundFloat64 w.toNat = w.toNat := by
  rw [float64_of_nonneg w hw] at hr
  omega

theorem float64_idem (n : Int) : float64 (float64 n) = float64 n := by
  by_cases h : 0 ≤ n
  · rw [float64_of_nonneg n h, float64_of_nonneg _ (Int.natCast_nonneg _), Int.toNat_natCast,
      roundFloat64_idem]
  · have h1 : float64 n = -(roundFloat64 (-n).toNat : Int) := by
      unfold float64
      rw [if_neg h]
    rw [h1]
    by_cases h2 : roundFloat64 (-n).toNat = 0
    · rw [h2]
      simp [float64, roundFloat64_zero]
    · have h3 : ¬ (0 : Int) ≤ -(roundFloat64 (-n).toNat : Int) := by omega
      unfold float64
      rw [if_neg h3]
      simp only [neg_neg, Int.toNat_natCast, roundFloat64_idem]

/-- Rounding stays at or below a representable number it starts at or below. -/
theorem float64_le (x w : Int) (hw : 0 ≤ w) (hr : float64 w = w) (h : x ≤ w) :
    float64 x ≤ w := by
  by_cases hx : 0 ≤ x
  · rw [float64_of_nonneg x hx]
    have := roundFloat64_le x.toNat w.toNat (representable_toNat w hw hr) (by omega)
    omega
  · have := float64_nonpos x (by omega)
    omega

/-- Rounding stays at or above a representable number it starts at or above. -/
theorem le_float64 (e w : Int) (hw : 0 ≤ w) (hr : float64 w = w) (h : w ≤ e) :
    w ≤ float64 e := by
  rw [float64_of_nonneg e (by omega)]
  have := le_roundFloat64 e.toNat w.toNat (representable_toNat w hw hr) (by omega)
  omega

theorem wrapInt64_le (n : Int) (h : 0 ≤ n) : wrapInt64 n ≤ n := by
  unfold wrapInt64
  omega

theorem wrapInt64_min : wrapInt64 (-9223372036854775808 * 1000000) = 0 := by decide

theorem sleepCalls_append (a b : List Event) :
    sleepCalls (a ++ b) = sleepCalls a ++ sleepCalls b := by
  induction a with
  | nil => rfl
  | cons x a ih =>
    cases x <;> simp [sleepCalls, ih]

/-- The sleep of lines 214-221 for a wait `w` that is a `float64` and not
negative, and an elapsed time `e` that is not negative. -/
theorem sleepEvents_spec (w e : Int) (hw : 0 ≤ w) (hr : float64 w = w) (he : 0 ≤ e) :
    0 ≤ timeAsleep (sleepEvents w e) ∧ timeAsleep (sleepEvents w e) ≤ w * 1000000 ∧
    (w ≤ e → sleepEvents w e = []) ∧
    (float64 e = e → w - e ≤ 9223372036854 →
      timeAsleep (sleepEvents w e) = max 0 (w - e) * 1000000) := by
  have hfe : 0 ≤ float64 e := float64_nonneg e he
  have hsd : float64 (w - float64 e) ≤ w := float64_le _ w hw hr (by omega)
  have hzero : w ≤ e → sleepEvents w e = [] := by
    intro h
    have h1 : w ≤ float64 e := le_float64 e w hw hr h
    have h2 := float64_nonpos (w - float64 e) (by omega)
    unfold sleepEvents sleepDuration
    rw [max_eq_right h2]
    simp
  by_cases hpos : sleepDuration w e > 0
  · have hev : sleepEvents w e = [.sleep (sleepNanos w e)] := by
      unfold sleepEvents
      rw [if_pos hpos]
    have hta : timeAsleep (sleepEvents w e) = max (sleepNanos w e) 0 := by
      rw [hev]
      simp [timeAsleep, sleepCalls]
    have hsdeq : sleepDuration w e = float64 (w - float64 e) := by
      unfold sleepDuration at hpos ⊢
      rcases le_total (float64 (w - float64 e)) 0 with h | h
      · rw [max_eq_right h] at hpos
        omega
      · exact max_eq_left h
    have hwe : ¬ w ≤ e := by
      intro h
      rw [hzero h] at hev
      simp at hev
    rw [hta]
    refine ⟨le_max_right _ _, ?_, fun h => absurd h hwe, ?_⟩
    · apply max_le _ (by omega)
      unfold sleepNanos int64OfFloat
      rw [hsdeq]
      split
      · have := wrapInt64_le (float64 (w - float64 e) * 1000000) (by omega)
        omega
      · rw [wrapInt64_min]
        omega
    · intro hexact hbound
      have hx : float64 (w - e) = w - e := float64_exact (w - e) (by omega) (by omega)
      unfold sleepNanos int64OfFloat
      rw [hsdeq, hexact, hx, if_pos (by omega), wrapInt64_exact _ (by omega) (by omega),
        max_eq_left (by omega), max_eq_right (by omega)]
  · have hev : sleepEvents w e = [] := by
      unfold sleepEvents
      rw [if_neg hpos]
    have hta : timeAsleep (sleepEvents w e) = 0 := by
      rw [hev]
      rfl
    rw [hta]
    refine ⟨le_refl _, by omega, hzero, ?_⟩
    intro hexact hbound
    by_cases hwe : w ≤ e
    · rw [max_eq_left (by omega)]
      simp
    · exfalso
      apply hpos
      have hx : float64 (w - e) = w - e := float64_exact (w - e) (by omega) (by omega)
      unfold sleepDuration
      rw [hexact, hx]
      have : 0 < w - e := by omega
      exact lt_of_lt_of_le this (le_max_left _ _)

theorem Atoi_nonneg (s : String) : 0 ≤ Atoi s := by
  unfold Atoi
  split
  · exact Int.natCast_nonneg _
  · decide

theorem float64_8000 : float64 8000 = 8000 := by decide

/-- What `solveChallenge` returns as the wait is a `float64` that is not
negative, and it calls nothing but the script engine. -/
theorem solveChallenge_ret (env : Env) (body host : String) (t1 : List Event)
    (answer : String) (w : Int)
    (h : solveChallenge env body host = (t1, .ret (answer, w, none))) :
    0 ≤ w ∧ float64 w = w ∧ sleepCalls t1 = [] := by
  simp only [solveChallenge] at h
  split at h
  · simp at h
  · split at h
    · simp at h
    · split at h
      · simp at h
      · split at h
        · simp at h
        · simp at h
        · simp only [Prod.mk.injEq, Result.ret.injEq] at h
          obtain ⟨ht, _, hw, _⟩ := h
          rw [← ht, ← hw]
          refine ⟨?_, ?_, rfl⟩
          · split
            · exact float64_nonneg _ (Atoi_nonneg _)
            · decide
          · split
            · exact float64_idem _
            · exact float64_8000

/-- The calls of `time.Sleep` in a run of `solveCloudFlare` that has the wait
`w` from `solveChallenge` are those of lines 214-221. -/
theorem solveCloudFlare_sleepCalls (env : Env) (resp : Response) (originalReq : Request)
    (caller : callerFunc) (body : String) (form : Form) (t1 : List Event) (answer : String)
    (w : Int) (hbody : resp.Body = .data body)
    (hform : extractForm originalReq.URL body = .ok form)
    (hsolve : solveChallenge env body form.host = (t1, .ret (answer, w, none))) :
    sleepCalls (solveCloudFlare env resp originalReq caller).1 =
      sleepCalls (sleepEvents w env.elapsed) := by
  have ht := (solveChallenge_ret env body form.host t1 answer w hsolve).2.2
  unfold solveCloudFlare
  simp only [hbody, hform, hsolve]
  cases hq : buildRequest env (withAnswer form answer) resp originalReq
      (match resp.Location with
        | some u => u
        | none => originalReq.URL) with
  | panic m => simp [sleepCalls, sleepCalls_append, ht]
  | fail e => simp [sleepCalls, sleepCalls_append, ht]
  | ok q => simp [sleepCalls, sleepCalls_append, ht]

theorem withAnswer_host (form : Form) (answer : String) :
    (withAnswer form answer).host = form.host := by
  unfold withAnswer
  split
  · rfl
  · split <;> rfl

/-- A run of `solveCloudFlare` whose form is extracted calls `solveChallenge`. -/
theorem solveCloudFlare_reaches (env : Env) (resp : Response) (originalReq : Request)
    (caller : callerFunc) (body : String) (form : Form)
    (hbody : resp.Body = .data body)
    (hform : extractForm originalReq.URL body = .ok form) :
    Event.solveChallenge body form.host ∈ (solveCloudFlare env resp originalReq caller).1 := by
  unfold solveCloudFlare
  simp only [hbody, hform]
  rcases hc : solveChallenge env body form.host with ⟨t1, r⟩
  rcases r with ⟨answer, delay, _ | e⟩ | m
  · simp only []
    cases hq : buildRequest env (withAnswer form answer) resp originalReq
        (match resp.Location with
          | some u => u
          | none => originalReq.URL) with
    | panic m => simp [withAnswer_host]
    | fail e => simp [withAnswer_host]
    | ok q => simp [withAnswer_host]
  · simp
  · simp

/-! ## The claims -/

/-- Claim C1: `IsCloudFlared` is true exactly when the status code is 503 or 429
and the `Server` header has a first value that starts with `cloudflare`; it is
false for any other status code, for an absent `Server` header and for a value
with another start. -/
theorem IsCloudFlared_iff (resp : Response) :
    IsCloudFlared resp = true ↔
      (resp.StatusCode = 503 ∨ resp.StatusCode = 429) ∧
      ∃ v vs tail, StrMap.lookup resp.Header "Server" = some (v :: vs) ∧
        v.data = "cloudflare".data ++ tail := by
  unfold IsCloudFlared HasPrefix Header.Get
  rw [canonical_Server]
  simp only [Bool.and_eq_true, Bool.or_eq_true, decide_eq_true_eq, hasPrefixChars_iff]
  constructor
  · rintro ⟨hs, t, ht⟩
    refine ⟨hs, ?_⟩
    split at ht
    · next v vs hv => exact ⟨v, vs, t, hv, ht⟩
    · exact absurd ht (by simp)
  · rintro ⟨hs, v, vs, t, hv, ht⟩
    refine ⟨hs, t, ?_⟩
    rw [hv]
    exact ht

/-- Claim C2, evaluated on the code: the transport fails the submission of the
sample POST page, and `solveCloudFlare` returns `passed = true` with a nil error
instead of the transport error. -/
theorem transport_error_not_propagated :
    sentRequests (solveCloudFlare sampleEnv (sampleResponse "example.com" postPage)
      (sampleRequest "example.com") failingTransport).1 = [sampleSubmission] ∧
    failingTransport sampleSubmission = (none, some "dial tcp: i/o timeout") ∧
    (solveCloudFlare sampleEnv (sampleResponse "example.com" postPage)
      (sampleRequest "example.com") failingTransport).2 = .ret (none, true, none) := by
  decide!

/-- Claim C3, evaluated on the code: the form method is `get` in lower case and
neither field set holds `jschl_vc`; whatever the collaborators, `solveCloudFlare`
calls `solveChallenge` all the same, and in the sample run it goes on to sleep
and panics on the request that was never made, with no error naming the field. -/
theorem mandatory_check_skipped (env : Env) (caller : callerFunc) :
    collectForm (sampleRequest "example.com").URL lowerCasePage = .ok lowerCaseForm ∧
    lowerCaseForm.formGet.Get "jschl_vc" = "" ∧ lowerCaseForm.formPost.Get "jschl_vc" = "" ∧
    Event.solveChallenge lowerCasePage "example.com" ∈
      (solveCloudFlare env (sampleResponse "example.com" lowerCasePage)
        (sampleRequest "example.com") caller).1 ∧
    solveCloudFlare sampleEnv (sampleResponse "example.com" lowerCasePage)
      (sampleRequest "example.com") (answeringTransport 302) =
        ([.solveCloudFlare, .solveChallenge lowerCasePage "example.com", .eval sampleProgram,
          .sleep 4000000000], .panic nilDeref) := by
  have hc : collectForm (sampleRequest "example.com").URL lowerCasePage = .ok lowerCaseForm := by
    decide!
  have hx : extractForm (sampleRequest "example.com").URL lowerCasePage = .ok lowerCaseForm := by
    decide!
  exact ⟨hc, by decide, by decide,
    solveCloudFlare_reaches env (sampleResponse "example.com" lowerCasePage)
      (sampleRequest "example.com") caller lowerCasePage lowerCaseForm rfl hx,
    by decide!⟩

/-- What the check of lines 186-199 does for the two methods it knows: when
form, method, action and inputs are collected and the method is exactly `POST` or
`GET`, a field set of that method without a non-empty `jschl_vc` (respectively
`pass`) makes `solveCloudFlare` return the error naming that field without any
call of `solveChallenge`; and whenever `solveChallenge` is called, both fields
are in the field set with non-empty values and stay there when the answer is
added. -/
theorem mandatory_checked (env : Env) (resp : Response) (originalReq : Request)
    (caller : callerFunc) (body : String) (form : Form)
    (hbody : resp.Body = .data body)
    (hform : collectForm originalReq.URL body = .ok form)
    (hmethod : form.method = "POST" ∨ form.method = "GET") :
    (form.fields.Get "jschl_vc" = "" →
      solveCloudFlare env resp originalReq caller =
        ([.solveCloudFlare], .ret (none, false, some "jschl_vc is missing from challenge form"))) ∧
    (form.fields.Get "jschl_vc" ≠ "" → form.fields.Get "pass" = "" →
      solveCloudFlare env resp originalReq caller =
        ([.solveCloudFlare], .ret (none, false, some "pass is missing from challenge form"))) ∧
    (∀ b host, Event.solveChallenge b host ∈ (solveCloudFlare env resp originalReq caller).1 →
      form.fields.Get "jschl_vc" ≠ "" ∧ form.fields.Get "pass" ≠ "" ∧
      ∀ answer, (withAnswer form answer).fields.Get "jschl_vc" ≠ "" ∧
        (withAnswer form answer).fields.Get "pass" ≠ "") := by
  have hx : extractForm originalReq.URL body = checkMandatory form := by
    unfold extractForm
    rw [hform]
    rfl
  rw [checkMandatory_eq form hmethod] at hx
  have h1 : form.fields.Get "jschl_vc" = "" →
      solveCloudFlare env resp originalReq caller =
        ([.solveCloudFlare],
          .ret (none, false, some "jschl_vc is missing from challenge form")) := by
    intro h
    rw [if_pos h] at hx
    simp only [solveCloudFlare, hbody, hx]
  have h2 : form.fields.Get "jschl_vc" ≠ "" → form.fields.Get "pass" = "" →
      solveCloudFlare env resp originalReq caller =
        ([.solveCloudFlare], .ret (none, false, some "pass is missing from challenge form")) := by
    intro h h'
    rw [if_neg h, if_pos h'] at hx
    simp only [solveCloudFlare, hbody, hx]
  refine ⟨h1, h2, ?_⟩
  intro b host hmem
  have a1 : form.fields.Get "jschl_vc" ≠ "" := by
    intro h
    rw [h1 h] at hmem
    simp at hmem
  have a2 : form.fields.Get "pass" ≠ "" := by
    intro h
    rw [h2 a1 h] at hmem
    simp at hmem
  refine ⟨a1, a2, ?_⟩
  intro answer
  have hne1 : ("jschl_vc" : String) ≠ "jschl_answer" := by decide
  have hne2 : ("pass" : String) ≠ "jschl_answer" := by decide
  have hGP : ¬ ("GET" = "POST") := by decide
  rcases hmethod with hm | hm
  · simp only [withAnswer, Form.fields, hm, if_true] at a1 a2 ⊢
    rw [Get_Set_ne _ _ _ _ hne1, Get_Set_ne _ _ _ _ hne2]
    exact ⟨a1, a2⟩
  · simp only [withAnswer, Form.fields, hm, hGP, if_true, if_false] at a1 a2 ⊢
    rw [Get_Set_ne _ _ _ _ hne1, Get_Set_ne _ _ _ _ hne2]
    exact ⟨a1, a2⟩

/-- Witness of `mandatory_checked`: the POST page without a `pass` input is
refused with the error that names `pass`. -/
theorem mandatory_checked_witness :
    (sampleResponse "example.com" noPassPage).Body = .data noPassPage ∧
    collectForm (sampleRequest "example.com").URL noPassPage = .ok noPassForm ∧
    (noPassForm.method = "POST" ∨ noPassForm.method = "GET") ∧
    solveCloudFlare sampleEnv (sampleResponse "example.com" noPassPage)
      (sampleRequest "example.com") (answeringTransport 302) =
        ([.solveCloudFlare], .ret (none, false, some "pass is missing from challenge form")) :=
  ⟨rfl, by decide!, Or.inl rfl,
    (mandatory_checked sampleEnv (sampleResponse "example.com" noPassPage)
      (sampleRequest "example.com") (answeringTransport 302) noPassPage noPassForm
      rfl (by decide!) (Or.inl rfl)).2.1 (by decide) (by decide)⟩

/-- Claim C4, evaluated on the code: `copyRequestHeaders` replaces the content
type the new request already had by the one of the original request, and the
POST submission of `solveCloudFlare` carries the content type of the original
request before the one of the form. -/
theorem copyRequestHeaders_overwrites :
    formRequest.Header.Get "Content-Type" = "application/x-www-form-urlencoded" ∧
    (copyRequestHeaders (sampleRequest "example.com") formRequest).Header.Get "Content-Type"
      = "application/json" ∧
    (sentRequests (solveCloudFlare sampleEnv (sampleResponse "example.com" postPage)
      (sampleRequest "example.com") (answeringTransport 302)).1).map
        (fun r => (r.Method, r.Header.Get "Content-Type", r.Header.Values "Content-Type"))
      = [("POST", "application/json",
          ["application/json", "application/x-www-form-urlencoded"])] := by
  decide!

/-- Claim C5: when the transport was handed the submission and delivered a
response without error, `solveCloudFlare` returns the still-blocked error with no
response and `passed = false` for status 503, and that very response with
`passed = true` and no error for every other status. -/
theorem solveCloudFlare_delivered (env : Env) (resp : Response) (originalReq : Request)
    (caller : callerFunc) (req : Request) (r : Response)
    (hsend : Event.send req ∈ (solveCloudFlare env resp originalReq caller).1)
    (hcall : caller req = (some r, none)) :
    (solveCloudFlare env resp originalReq caller).2 =
      if r.StatusCode = 503 then
        .ret (none, false, some "Response after CloudFlare answer is still blocked with 503")
      else .ret (some r, true, none) := by
  rw [solveCloudFlare_sent env resp originalReq caller req hsend, hcall]
  rfl

/-- Witness of `solveCloudFlare_delivered`: the sample POST page, answered with
status 302. -/
theorem solveCloudFlare_delivered_witness :
    Event.send sampleSubmission ∈
      (solveCloudFlare sampleEnv (sampleResponse "example.com" postPage)
        (sampleRequest "example.com") (answeringTransport 302)).1 ∧
    answeringTransport 302 sampleSubmission = (some (answerResponse 302), none) ∧
    (solveCloudFlare sampleEnv (sampleResponse "example.com" postPage)
      (sampleRequest "example.com") (answeringTransport 302)).2 =
      if (answerResponse 302).StatusCode = 503 then
        .ret (none, false, some "Response after CloudFlare answer is still blocked with 503")
      else .ret (some (answerResponse 302), true, none) :=
  ⟨by decide!, rfl,
    solveCloudFlare_delivered sampleEnv (sampleResponse "example.com" postPage)
      (sampleRequest "example.com") (answeringTransport 302) sampleSubmission
      (answerResponse 302) (by decide!) rfl⟩

/-- Claim C6 as stated fails: for a wait of 9223372036855 ms and no elapsed time
the product with the nanoseconds of a millisecond leaves the `int64` range,
`time.Sleep` gets a negative duration and the run does not sleep; and for a wait
of `2^60` ms of which `2^60 - 1000` ms have elapsed, the elapsed time is rounded
on its way to `float64` and the run sleeps 1024 ms instead of 1000 ms. -/
theorem delay_gate_fails :
    (solveChallenge sampleEnv longWaitPage "example.com").2 =
      .ret ("2", 9223372036855, none) ∧
    sleepCalls (solveCloudFlare sampleEnv (sampleResponse "example.com" longWaitPage)
      (sampleRequest "example.com") (answeringTransport 302)).1 = [-9223372036854551616] ∧
    ¬ (timeAsleep (solveCloudFlare sampleEnv (sampleResponse "example.com" longWaitPage)
        (sampleRequest "example.com") (answeringTransport 302)).1 =
      max 0 (9223372036855 - sampleEnv.elapsed) * 1000000) ∧
    (solveChallenge (sampleEnvAt 1152921504606845976) hugeWaitPage "example.com").2 =
      .ret ("2", 1152921504606846976, none) ∧
    sleepCalls (solveCloudFlare (sampleEnvAt 1152921504606845976)
      (sampleResponse "example.com" hugeWaitPage)
      (sampleRequest "example.com") (answeringTransport 302)).1 = [1024000000] ∧
    ¬ (timeAsleep (solveCloudFlare (sampleEnvAt 1152921504606845976)
        (sampleResponse "example.com" hugeWaitPage)
        (sampleRequest "example.com") (answeringTransport 302)).1 =
      max 0 (1152921504606846976 - (sampleEnvAt 1152921504606845976).elapsed) * 1000000) := by
  decide!

/-- Claim C6, amended: in every run of `solveCloudFlare` that has the wait `w`
from `solveChallenge`, with an elapsed time that is not negative, the wait is
not negative, the time asleep is never negative and never longer than the wait,
`time.Sleep` is not called when the elapsed time has reached the wait, and the
time asleep is `max(0, w - elapsed)` ms whenever that is at most 9223372036854 ms
and the elapsed time has reached the wait or is exactly a `float64`. -/
theorem delay_gate (env : Env) (resp : Response) (originalReq : Request)
    (caller : callerFunc) (body : String) (form : Form) (t1 : List Event) (answer : String)
    (w : Int) (hbody : resp.Body = .data body)
    (hform : extractForm originalReq.URL body = .ok form)
    (hsolve : solveChallenge env body form.host = (t1, .ret (answer, w, none)))
    (he : 0 ≤ env.elapsed) :
    0 ≤ w ∧
    0 ≤ timeAsleep (solveCloudFlare env resp originalReq caller).1 ∧
    timeAsleep (solveCloudFlare env resp originalReq caller).1 ≤ w * 1000000 ∧
    (w ≤ env.elapsed → sleepCalls (solveCloudFlare env resp originalReq caller).1 = []) ∧
    (w ≤ env.elapsed ∨ float64 env.elapsed = env.elapsed → w - env.elapsed ≤ 9223372036854 →
      timeAsleep (solveCloudFlare env resp originalReq caller).1 =
        max 0 (w - env.elapsed) * 1000000) := by
  obtain ⟨hw, hr, _⟩ := solveChallenge_ret env body form.host t1 answer w hsolve
  have hs := solveCloudFlare_sleepCalls env resp originalReq caller body form t1 answer w
    hbody hform hsolve
  have ht : timeAsleep (solveCloudFlare env resp originalReq caller).1 =
      timeAsleep (sleepEvents w env.elapsed) := by
    unfold timeAsleep
    rw [hs]
  obtain ⟨a, b, c, d⟩ := sleepEvents_spec w env.elapsed hw hr he
  rw [hs, ht]
  refine ⟨hw, a, b, ?_, ?_⟩
  · intro h
    rw [c h]
    rfl
  · intro h hb
    rcases h with h | h
    · rw [c h, max_eq_left (by omega)]
      rfl
    · exact d h hb

/-- Witness of `delay_gate`: the sample POST page with a wait of 4000 ms, of which
150 ms have elapsed. -/
theorem delay_gate_witness :
    (sampleResponse "example.com" postPage).Body = .data postPage ∧
    extractForm (sampleRequest "example.com").URL postPage = .ok postForm ∧
    solveChallenge (sampleEnvAt 150) postPage postForm.host =
      ([.eval sampleProgram], .ret ("2", 4000, none)) ∧
    0 ≤ (sampleEnvAt 150).elapsed ∧
    float64 (sampleEnvAt 150).elapsed = (sampleEnvAt 150).elapsed ∧
    4000 - (sampleEnvAt 150).elapsed ≤ 9223372036854 ∧
    timeAsleep (solveCloudFlare (sampleEnvAt 150) (sampleResponse "example.com" postPage)
      (sampleRequest "example.com") (answeringTransport 302)).1 =
        max 0 (4000 - (sampleEnvAt 150).elapsed) * 1000000 :=
  ⟨rfl, by decide!, by decide!, by decide, by decide, by decide,
    (delay_gate (sampleEnvAt 150) (sampleResponse "example.com" postPage)
      (sampleRequest "example.com") (answeringTransport 302) postPage postForm
      [.eval sampleProgram] "2" 4000 rfl (by decide!) (by decide!) (by decide)).2.2.2.2
      (Or.inr (by decide)) (by decide)⟩

/-- Claim C7: for a response on which `IsCloudFlared` is false, `RunClient` and
`RunProxy` return that response with a nil error and cause no event: no call of
the transport, no entry into `solveCloudFlare`. -/
theorem RunClient_RunProxy_pass (env : Env) (resp : Response) (clientDo : callerFunc)
    (ctx : ProxyCtx) (h : IsCloudFlared resp = false) :
    RunClient env resp clientDo = ([], .ret (some resp, none)) ∧
    RunProxy env resp ctx = ([], .ret (some resp, none)) := by
  simp [RunClient, RunProxy, h]

/-- Witness of `RunClient_RunProxy_pass`: a response with status 200. -/
theorem RunClient_RunProxy_pass_witness :
    IsCloudFlared plainResponse = false ∧
    RunClient sampleEnv plainResponse failingTransport = ([], .ret (some plainResponse, none)) ∧
    RunProxy sampleEnv plainResponse sampleCtx = ([], .ret (some plainResponse, none)) :=
  ⟨by decide, RunClient_RunProxy_pass sampleEnv plainResponse failingTransport sampleCtx
    (by decide)⟩

/-- Claim C8, evaluated on the code: on a page without a script block
`solveChallenge` panics with an index out of range on the empty match result; it
returns no error. -/
theorem solveChallenge_no_script (env : Env) (host : String) :
    reJavaScript.FindStringSubmatch 1 "<html><body>blocked</body></html>" = none ∧
    solveChallenge env "<html><body>blocked</body></html>" host =
      ([], .panic "index out of range [1] with length 0") := by
  have h : reJavaScript.FindStringSubmatch 1 "<html><body>blocked</body></html>" = none := by
    decide!
  refine ⟨h, ?_⟩
  simp only [solveChallenge, h]

/-- Claim C9, evaluated on the code: for the original URL
`https://example.com:4430/x` the submission carries the single `Referer`
`https://example.com0/x`, and it is sent to the host `example.com0`. -/
theorem referer_port_text_removed :
    (sampleRequest "example.com:4430").URL.String = "https://example.com:4430/x" ∧
    (sentRequests (solveCloudFlare sampleEnv (sampleResponse "example.com:4430" postPage)
      (sampleRequest "example.com:4430") (answeringTransport 302)).1).map
        (fun r => (r.Header.Values "Referer", r.URL.Host))
      = [(["https://example.com0/x"], "example.com0")] := by
  decide!

/-- Claim C10, evaluated on the code: a query parameter without `=` makes
`solveCloudFlare` panic with an index out of range, and the value `ab==` of the
parameter `s` is cut to `ab`. -/
theorem action_query_slips :
    collectForm (sampleRequest "example.com").URL
      (samplePage "/cdn-cgi/l/chk_jschl?flag" "GET" bothInputs) =
        .panic "index out of range [1] with length 1" ∧
    solveCloudFlare sampleEnv
      (sampleResponse "example.com" (samplePage "/cdn-cgi/l/chk_jschl?flag" "GET" bothInputs))
      (sampleRequest "example.com") (answeringTransport 302) =
        ([.solveCloudFlare], .panic "index out of range [1] with length 1") ∧
    (collectForm (sampleRequest "example.com").URL
      (samplePage "/cdn-cgi/l/chk_jschl?s=ab==" "GET" bothInputs)).bind
        (fun f => .ok (f.submitURL, f.formGet.Get "s")) =
          .ok ("https://example.com/cdn-cgi/l/chk_jschl", "ab") := by
  decide!

end Cfbypass
